import Mathlib

/-!
Verification of the HIDArduino tremor-filter repository.

The development shallowly embeds the algorithmic core of the repository's
Python sources:

* `Enhanced` models `enhanced_tremor_filter.py` (five-criterion classifier,
  adaptive exponential smoothing, polling monitor loop, toggle).
* `Serial` models `tremor_filter.py` (baseline three-criterion classifier,
  serial-record parsing and processing).

Machine floats are modelled as real numbers; Python `int()` truncation is
`pyInt`; Python `deque(maxlen=N)` is `dequePush`/`lastN`; `np.mean`/`np.std`
are `mean`/`std` (population standard deviation, as NumPy computes).
-/

namespace TremorFilter

open Classical

noncomputable section

/-- Keep the last `n` entries of a list (Python `deque(maxlen=n)` contents,
oldest → newest, and `list[-n:]` slicing). -/
def lastN (n : ℕ) (l : List α) : List α :=
  (l.reverse.take n).reverse

/-- Python `deque.append` with `maxlen = cap`: append and evict from the left. -/
def dequePush (cap : ℕ) (l : List α) (a : α) : List α :=
  lastN cap (l ++ [a])

/-- NumPy `np.mean` of a list of reals (`0` on the empty list, which the code never
hits on the paths modelled here). -/
def mean (l : List ℝ) : ℝ := l.sum / l.length

/-- NumPy `np.std`: population standard deviation. -/
def std (l : List ℝ) : ℝ :=
  Real.sqrt (mean (l.map (fun m => (m - mean l) ^ 2)))

/-- Source `calculate_magnitude(x, y)` (identical in every variant). -/
def calculate_magnitude (x y : ℝ) : ℝ := Real.sqrt (x ^ 2 + y ^ 2)

/-- Consecutive differences `[l[i] - l[i-1] for i in range(1, len(l))]`. -/
def pairDiffs : List ℝ → List ℝ
  | a :: b :: rest => (b - a) :: pairDiffs (b :: rest)
  | _ => []

/-- Componentwise consecutive differences of a list of points. -/
def pairDiffs2 : List (ℝ × ℝ) → List (ℝ × ℝ)
  | a :: b :: rest => (b.1 - a.1, b.2 - a.2) :: pairDiffs2 (b :: rest)
  | _ => []

/-- Python `sum(1 for d in l if d < 0)`. -/
def negCount (l : List ℝ) : ℕ :=
  (l.map (fun d => if d < 0 then (1 : ℕ) else 0)).sum

/-- Python `int()` applied to a float: truncation toward zero. -/
def pyInt (r : ℝ) : ℤ := if 0 ≤ r then ⌊r⌋ else ⌈r⌉

/-- Value of a decimal digit character, `none` for non-digits. -/
def digitVal? (c : Char) : Option ℕ :=
  if '0' ≤ c ∧ c ≤ '9' then some (c.toNat - '0'.toNat) else none

/-- Accumulate decimal digits; `none` on any non-digit or on no digits. -/
def digitsToNat? : List Char → Option ℕ → Option ℕ
  | [], acc => acc
  | c :: rest, acc =>
    match digitVal? c, acc with
    | some d, some n => digitsToNat? rest (some (n * 10 + d))
    | some d, none => digitsToNat? rest (some d)
    | none, _ => none

/-- Python `int(str)` on a decimal string (optional leading minus sign);
`none` models the `ValueError` raised on non-numeric input. -/
def parseInt? (s : String) : Option ℤ :=
  match s.data with
  | '-' :: rest => (digitsToNat? rest none).map (fun n => -(n : ℤ))
  | cs => (digitsToNat? cs none).map (fun n => (n : ℤ))

/-- Python `line.split(',')`: split on every comma, keeping empty fields. -/
def splitCommaAux : List Char → List Char → List String
  | [], acc => [String.mk acc.reverse]
  | c :: rest, acc =>
    if c = ',' then String.mk acc.reverse :: splitCommaAux rest []
    else splitCommaAux rest (c :: acc)

/-- Python `line.split(',')` on a whole string. -/
def splitComma (s : String) : List String := splitCommaAux s.data []

/-! ## `enhanced_tremor_filter.py` -/

namespace Enhanced

/-- Constant `SAMPLE_SIZE = 25`. -/
def SAMPLE_SIZE : ℕ := 25

/-- Constant `SHAKE_THRESHOLD = 1.7`. -/
def SHAKE_THRESHOLD : ℝ := 1.7

/-- Constant `SMOOTHING_FACTOR = 0.4`. -/
def SMOOTHING_FACTOR : ℝ := 0.4

/-- Constant `FREQUENCY_WINDOW = 15`. -/
def FREQUENCY_WINDOW : ℕ := 15

/-- Constant `MIN_TREMOR_FREQUENCY = 3.0`. -/
def MIN_TREMOR_FREQUENCY : ℝ := 3.0

/-- Constant `MAX_TREMOR_FREQUENCY = 12.0`. -/
def MAX_TREMOR_FREQUENCY : ℝ := 12.0

/-- Constant `DIRECTION_CHANGE_THRESHOLD = 0.4`. -/
def DIRECTION_CHANGE_THRESHOLD : ℝ := 0.4

/-- Constant `STD_DEV_THRESHOLD = 0.75`. -/
def STD_DEV_THRESHOLD : ℝ := 0.75

/-- Constant `JITTER_THRESHOLD = 2.0`. -/
def JITTER_THRESHOLD : ℝ := 2.0

/-- Constant `ADAPTIVE_SMOOTHING = True`. -/
def ADAPTIVE_SMOOTHING : Bool := true

/-- Source `calculate_frequency()`, as a function of the timestamp history. -/
def calculate_frequency (timestamp_history : List ℝ) : ℝ :=
  if timestamp_history.length < FREQUENCY_WINDOW then 0
  else
    let recent_times := lastN FREQUENCY_WINDOW timestamp_history
    let intervals := pairDiffs recent_times
    if intervals = [] then 0
    else
      let avg_interval := mean intervals
      if avg_interval = 0 then 0 else 1 / avg_interval

/-- Source `calculate_jitter(positions)`. -/
def calculate_jitter (positions : List (ℝ × ℝ)) : ℝ :=
  if positions.length < 3 then 0
  else
    let first_derivs := pairDiffs2 positions
    let second_derivs := (pairDiffs2 first_derivs).map
      (fun d => calculate_magnitude d.1 d.2)
    if second_derivs = [] then 0 else mean second_derivs

/-- The `directions` list built inside `detect_tremor` (lines 124–138):
cosine of the angle between each consecutive pair of deltas, kept only when
both vectors are non-zero and the magnitude product is non-zero. -/
def cosDirections : List (ℝ × ℝ) → List ℝ
  | (px, py) :: (cx, cy) :: rest =>
    (if (px ≠ 0 ∨ py ≠ 0) ∧ (cx ≠ 0 ∨ cy ≠ 0) then
      (if calculate_magnitude px py * calculate_magnitude cx cy ≠ 0 then
        [(px * cx + py * cy) /
          (calculate_magnitude px py * calculate_magnitude cx cy)]
      else [])
    else []) ++ cosDirections ((cx, cy) :: rest)
  | _ => []

/-- The `tremor_scores` dict of `detect_tremor` (lines 161–167), in Python
dict insertion order, as a function of the post-append histories and the
current delta. -/
def criteriaScores (dh ph : List (ℝ × ℝ)) (th : List ℝ) (dx dy : ℝ) :
    List (String × ℝ) :=
  let current_magnitude := calculate_magnitude dx dy
  let magnitudes := dh.map (fun d => calculate_magnitude d.1 d.2)
  let avg_magnitude := mean magnitudes
  let std_magnitude := std magnitudes
  let directions := cosDirections dh
  let direction_change_ratio :=
    if directions = [] then 0
    else (negCount directions : ℝ) / directions.length
  let frequency := calculate_frequency th
  let jitter := calculate_jitter ph
  let cv := if avg_magnitude > 0 then std_magnitude / avg_magnitude else 0
  [("Frequency",
     if MIN_TREMOR_FREQUENCY ≤ frequency ∧ frequency ≤ MAX_TREMOR_FREQUENCY
     then 1 else 0),
   ("Directional",
     if direction_change_ratio > DIRECTION_CHANGE_THRESHOLD then 1 else 0),
   ("Magnitude",
     if current_magnitude > avg_magnitude * SHAKE_THRESHOLD then 1 else 0),
   ("Jitter", if jitter > JITTER_THRESHOLD then 1 else 0),
   ("Variance", if cv > STD_DEV_THRESHOLD then 1 else 0)]

/-- Source `tremor_score = sum(tremor_scores.values()) / 5.0`. -/
def tremorScore (dh ph : List (ℝ × ℝ)) (th : List ℝ) (dx dy : ℝ) : ℝ :=
  ((criteriaScores dh ph th dx dy).map Prod.snd).sum / 5

/-- Python `[t for t, v in scores if v > 0]`. -/
def selectPos : List (String × ℝ) → List String
  | [] => []
  | (n, v) :: rest => (if v > 0 then [n] else []) ++ selectPos rest

/-- Source `detected_types` (line 178): criteria whose score entry is positive. -/
def detectedTypes (dh ph : List (ℝ × ℝ)) (th : List ℝ) (dx dy : ℝ) :
    List String :=
  selectPos (criteriaScores dh ph th dx dy)

/-- The module-level mutable state read and written by `detect_tremor`. -/
structure TremorState where
  delta_history : List (ℝ × ℝ)
  position_history : List (ℝ × ℝ)
  timestamp_history : List ℝ
  tremor_type : String
  tremor_intensity : ℝ

/-- Initial module state (lines 32–37). -/
def initState : TremorState := ⟨[], [], [], "None", 0⟩

/-- Source `detect_tremor(dx, dy, current_x, current_y)`; `now` stands for the
`time.time()` call on line 104.  Returns the value returned by the Python
function together with the updated module state. -/
def detect_tremor (s : TremorState) (dx dy cx cy now : ℝ) :
    Bool × TremorState :=
  let dh := dequePush SAMPLE_SIZE s.delta_history (dx, dy)
  let ph := dequePush SAMPLE_SIZE s.position_history (cx, cy)
  let th := dequePush SAMPLE_SIZE s.timestamp_history now
  let s1 := { s with delta_history := dh, position_history := ph,
                     timestamp_history := th }
  if dh.length < SAMPLE_SIZE / 2 then (false, s1)
  else
    let score := tremorScore dh ph th dx dy
    let detected := score > 0.3
    let ttype :=
      if detected then String.intercalate "+" (detectedTypes dh ph th dx dy)
      else "None"
    (decide detected,
     { s1 with tremor_type := ttype, tremor_intensity := score })

/-- One raw movement event as consumed by `detect_tremor`. -/
structure Sample where
  dx : ℝ
  dy : ℝ
  cx : ℝ
  cy : ℝ
  t : ℝ

/-- Feed a list of samples through `detect_tremor`, collecting the returned
detection flags. -/
def runOut : TremorState → List Sample → TremorState × List Bool
  | s, [] => (s, [])
  | s, a :: rest =>
    let r := detect_tremor s a.dx a.dy a.cx a.cy a.t
    let rec' := runOut r.2 rest
    (rec'.1, r.1 :: rec'.2)

/-- The `adaptive_factor` of `apply_adaptive_smoothing` (lines 190–194). -/
def adaptiveFactor (adaptive : Bool) (base intensity : ℝ) : ℝ :=
  if adaptive then max 0.1 (base * (1 - intensity)) else base

/-- Return value and state update of `apply_adaptive_smoothing`. -/
structure SmoothResult where
  out_x : ℤ
  out_y : ℤ
  new_last_x : ℝ
  new_last_y : ℝ

/-- Source `apply_adaptive_smoothing(x, y)` as a function of the globals it reads
(`ADAPTIVE_SMOOTHING`, `SMOOTHING_FACTOR`, `tremor_intensity`, `last_x`,
`last_y`).  The function returns `int(filtered)` but stores the untruncated
floats in `last_x`/`last_y`. -/
def apply_adaptive_smoothing (adaptive : Bool)
    (base intensity x y last_x last_y : ℝ) : SmoothResult :=
  let f := adaptiveFactor adaptive base intensity
  let filtered_x := f * x + (1 - f) * last_x
  let filtered_y := f * y + (1 - f) * last_y
  ⟨pyInt filtered_x, pyInt filtered_y, filtered_x, filtered_y⟩

/-- Iterate the smoothing step on a constant raw input `(x, y)` with a fixed
intensity, tracking the `(last_x, last_y)` filter state. -/
def smoothIter (adaptive : Bool) (base intensity x y : ℝ) :
    ℕ → ℝ × ℝ → ℝ × ℝ
  | 0, p => p
  | n + 1, p =>
    let r := apply_adaptive_smoothing adaptive base intensity x y p.1 p.2
    smoothIter adaptive base intensity x y n (r.new_last_x, r.new_last_y)

/-- The mutable state of the polling controller in
`enhanced_tremor_filter.py`. -/
structure MonitorState where
  ts : TremorState
  tremor_detected : Bool
  stabilization_active : Bool
  last_x : ℝ
  last_y : ℝ
  last_real_x : ℝ
  last_real_y : ℝ

/-- One iteration of the `mouse_monitor` polling loop (lines 226–253) on an
observed cursor position `(cx, cy)` at time `now`.  Returns the new state and
the `set_cursor_pos` call, if any. -/
def mouse_monitor_step (s : MonitorState) (cx cy now : ℝ) :
    MonitorState × Option (ℤ × ℤ) :=
  let dx := cx - s.last_real_x
  let dy := cy - s.last_real_y
  let s0 := { s with last_real_x := cx, last_real_y := cy }
  if (dx ≠ 0 ∨ dy ≠ 0) ∧ s.stabilization_active = true then
    let r := detect_tremor s.ts dx dy cx cy now
    if r.1 = true then
      let sm := apply_adaptive_smoothing ADAPTIVE_SMOOTHING SMOOTHING_FACTOR
        r.2.tremor_intensity cx cy s.last_x s.last_y
      ({ s0 with ts := r.2, tremor_detected := r.1,
                 last_x := sm.new_last_x, last_y := sm.new_last_y,
                 last_real_x := (sm.out_x : ℝ),
                 last_real_y := (sm.out_y : ℝ) },
       some (sm.out_x, sm.out_y))
    else ({ s0 with ts := r.2, tremor_detected := r.1 }, none)
  else (s0, none)

/-- Source `toggle_stabilization()` (lines 286–293): flips the flag and nothing
else. -/
def toggle_stabilization (s : MonitorState) : MonitorState :=
  { s with stabilization_active := !s.stabilization_active }

end Enhanced

/-! ## `tremor_filter.py` (serial/Arduino variant, baseline classifier) -/

namespace Serial

/-- Constant `SAMPLE_SIZE = 20`. -/
def SAMPLE_SIZE : ℕ := 20

/-- Constant `SHAKE_THRESHOLD = 1.7`. -/
def SHAKE_THRESHOLD : ℝ := 1.7

/-- Constant `SMOOTHING_FACTOR = 0.4`. -/
def SMOOTHING_FACTOR : ℝ := 0.4

/-- The `directions` list of the baseline `detect_tremor` (lines 54–63):
raw dot products of consecutive pairs, kept when the previous vector is
non-zero. -/
def dotDirections : List (ℝ × ℝ) → List ℝ
  | (px, py) :: (cx, cy) :: rest =>
    (if px ≠ 0 ∨ py ≠ 0 then [px * cx + py * cy] else []) ++
      dotDirections ((cx, cy) :: rest)
  | _ => []

/-- Baseline `detect_tremor(x, y)` (lines 35–79): appends to
`mouse_history` and decides by an OR of three criteria.  Returns the Python
return value and the updated history. -/
def detect_tremor (mouse_history : List (ℝ × ℝ)) (x y : ℝ) :
    Bool × List (ℝ × ℝ) :=
  let h := dequePush SAMPLE_SIZE mouse_history (x, y)
  if h.length < SAMPLE_SIZE / 2 then (false, h)
  else
    let current_magnitude := calculate_magnitude x y
    let magnitudes := h.map (fun p => calculate_magnitude p.1 p.2)
    let avg_magnitude := mean magnitudes
    let std_magnitude := std magnitudes
    let directions := dotDirections h
    let direction_changes := negCount directions
    (decide (current_magnitude > avg_magnitude * SHAKE_THRESHOLD ∨
             (direction_changes : ℝ) > (directions.length : ℝ) * 0.4 ∨
             std_magnitude > avg_magnitude * 0.8), h)

/-- Module state touched by `process_data` for motion records. -/
structure SerialState where
  mouse_history : List (ℝ × ℝ)
  tremor_detected : Bool
  stabilization_active : Bool
  last_x : ℝ
  last_y : ℝ

/-- Initial module state (lines 18–26). -/
def serialInit : SerialState := ⟨[], false, true, 0, 0⟩

/-- Externally visible effect of processing one serial record. -/
inductive SerialOutput where
  | none
  | moveRel (x y : ℤ)
  | buttonDown (b : String)
  | buttonUp (b : String)
  | info (msg : String)
  | arduinoError (msg : String)
  | parseError (line : String)
deriving DecidableEq

/-- The movement branch of `process_data` (lines 117–132) after both
fields parsed as integers. -/
def processM (s : SerialState) (x y : ℤ) : SerialState × SerialOutput :=
  let r := detect_tremor s.mouse_history (x : ℝ) (y : ℝ)
  let s1 := { s with mouse_history := r.2, tremor_detected := r.1 }
  let smoothed := r.1 = true ∧ s.stabilization_active = true
  let xr : ℝ :=
    if smoothed then SMOOTHING_FACTOR * x + (1 - SMOOTHING_FACTOR) * s.last_x
    else (x : ℝ)
  let yr : ℝ :=
    if smoothed then SMOOTHING_FACTOR * y + (1 - SMOOTHING_FACTOR) * s.last_y
    else (y : ℝ)
  let s2 := if smoothed then { s1 with last_x := xr, last_y := yr } else s1
  if xr ≠ 0 ∨ yr ≠ 0 then (s2, .moveRel (pyInt xr) (pyInt yr))
  else (s2, .none)

/-- Dispatch on the comma-separated fields of one record (the `if`/`elif`
chain of `process_data`, lines 117–164).  A motion record whose fields fail
integer parsing raises `ValueError` in Python; the handler on lines 134–135
logs the line and leaves every global untouched, modelled by
`.parseError line`. -/
def process_parts (s : SerialState) (line : String) :
    List String → SerialState × SerialOutput
  | "M" :: p1 :: p2 :: _ =>
    match parseInt? p1, parseInt? p2 with
    | some x, some y => processM s x y
    | _, _ => (s, .parseError line)
  | "L" :: st :: _ =>
    (s, if st = "1" then .buttonDown "left" else .buttonUp "left")
  | "R" :: st :: _ =>
    (s, if st = "1" then .buttonDown "right" else .buttonUp "right")
  | "N" :: st :: _ =>
    (s, if st = "1" then .buttonDown "middle" else .buttonUp "middle")
  | "I" :: rest => (s, .info (String.intercalate "," rest))
  | "E" :: rest => (s, .arduinoError (String.intercalate "," rest))
  | _ => (s, .none)

/-- Processing of one input line: `parts = line.split(',')` then dispatch. -/
def process_line (s : SerialState) (line : String) :
    SerialState × SerialOutput :=
  process_parts s line (splitComma line)

end Serial

/-! ## Concrete inputs used in the theorems below -/

namespace Enhanced

/-- A 12-sample window of unit deltas alternating between `(+1, 0)` and
`(-1, 0)` (a pure left–right oscillation). -/
def cwDeltas : List (ℝ × ℝ) :=
  [(1, 0), (-1, 0), (1, 0), (-1, 0), (1, 0), (-1, 0),
   (1, 0), (-1, 0), (1, 0), (-1, 0), (1, 0), (-1, 0)]

/-- The absolute positions produced by `cwDeltas` from the origin. -/
def cwPositions : List (ℝ × ℝ) :=
  [(1, 0), (0, 0), (1, 0), (0, 0), (1, 0), (0, 0),
   (1, 0), (0, 0), (1, 0), (0, 0), (1, 0), (0, 0)]

/-- Timestamps of the 12 samples, one second apart. -/
def cwTimes : List ℝ := [0, 1, 2, 3, 4, 5, 6, 7, 8, 9, 10, 11]

/-- Module state after the first 11 samples of the oscillation. -/
def cwPrev : TremorState :=
  { delta_history :=
      [(1, 0), (-1, 0), (1, 0), (-1, 0), (1, 0), (-1, 0),
       (1, 0), (-1, 0), (1, 0), (-1, 0), (1, 0)]
    position_history :=
      [(1, 0), (0, 0), (1, 0), (0, 0), (1, 0), (0, 0),
       (1, 0), (0, 0), (1, 0), (0, 0), (1, 0)]
    timestamp_history := [0, 1, 2, 3, 4, 5, 6, 7, 8, 9, 10]
    tremor_type := "None"
    tremor_intensity := 0 }

/-- A controller state with stabilization DISABLED, stale filter state
`(0, 0)`, and the real cursor resting at `(100, 100)`. -/
def mDis : MonitorState :=
  { ts := initState, tremor_detected := false, stabilization_active := false,
    last_x := 0, last_y := 0, last_real_x := 100, last_real_y := 100 }

/-- An ACTIVE controller state with the cursor resting at `(5, 5)`. -/
def mAct : MonitorState :=
  { ts := initState, tremor_detected := false, stabilization_active := true,
    last_x := 0, last_y := 0, last_real_x := 5, last_real_y := 5 }

/-- Fifteen timestamps spaced one second apart. -/
def fqTimes : List ℝ := [0, 1, 2, 3, 4, 5, 6, 7, 8, 9, 10, 11, 12, 13, 14]

end Enhanced

end

/-! ## Helper lemmas -/

theorem sqrt_four : Real.sqrt 4 = 2 := by
  rw [show (4 : ℝ) = 2 ^ 2 by norm_num,
    Real.sqrt_sq (by norm_num : (0 : ℝ) ≤ 2)]

theorem length_lastN (n : ℕ) (l : List α) :
    (lastN n l).length = min n l.length := by
  simp [lastN]

theorem lastN_of_length_le (n : ℕ) (l : List α) (h : l.length ≤ n) :
    lastN n l = l := by
  rw [lastN, List.take_of_length_le (by simpa using h), List.reverse_reverse]

theorem length_dequePush (c : ℕ) (l : List α) (a : α) :
    (dequePush c l a).length = min c (l.length + 1) := by
  simp [dequePush, length_lastN]

theorem pairDiffs_length (l : List ℝ) :
    (pairDiffs l).length = l.length - 1 := by
  induction l with
  | nil => simp [pairDiffs]
  | cons a tl ih =>
    cases tl with
    | nil => simp [pairDiffs]
    | cons b rest => simp [pairDiffs] at ih ⊢; omega

/-! ## C3 — adaptive smoothing formula and end-to-end scenario 4 -/

/-- C3: for every raw input and intensity, the effective blend factor is the
base factor when adaptive smoothing is off and `max(0.1, base·(1−intensity))`
when it is on; the filter state is updated to
`α_eff·raw + (1−α_eff)·last_filtered` and the emitted pair is its integer
truncation; in particular with adaptive on, base 0.4, intensity 0.8, last
filtered `(0,0)` and input `(10,10)` the emitted output is `(1,1)`. -/
theorem C3_adaptive_smoothing (adaptive : Bool) (base intensity x y lx ly : ℝ) :
    Enhanced.adaptiveFactor true base intensity =
      max 0.1 (base * (1 - intensity)) ∧
    Enhanced.adaptiveFactor false base intensity = base ∧
    (Enhanced.apply_adaptive_smoothing adaptive base intensity x y lx ly
      ).new_last_x =
      Enhanced.adaptiveFactor adaptive base intensity * x +
        (1 - Enhanced.adaptiveFactor adaptive base intensity) * lx ∧
    (Enhanced.apply_adaptive_smoothing adaptive base intensity x y lx ly
      ).new_last_y =
      Enhanced.adaptiveFactor adaptive base intensity * y +
        (1 - Enhanced.adaptiveFactor adaptive base intensity) * ly ∧
    (Enhanced.apply_adaptive_smoothing adaptive base intensity x y lx ly
      ).out_x =
      pyInt (Enhanced.adaptiveFactor adaptive base intensity * x +
        (1 - Enhanced.adaptiveFactor adaptive base intensity) * lx) ∧
    (Enhanced.apply_adaptive_smoothing adaptive base intensity x y lx ly
      ).out_y =
      pyInt (Enhanced.adaptiveFactor adaptive base intensity * y +
        (1 - Enhanced.adaptiveFactor adaptive base intensity) * ly) ∧
    (Enhanced.apply_adaptive_smoothing true 0.4 0.8 10 10 0 0).out_x = 1 ∧
    (Enhanced.apply_adaptive_smoothing true 0.4 0.8 10 10 0 0).out_y = 1 := by
  refine ⟨rfl, rfl, rfl, rfl, rfl, rfl, ?_, ?_⟩ <;>
    · show pyInt _ = 1
      have hf : Enhanced.adaptiveFactor true 0.4 0.8 = 0.1 := by
        rw [Enhanced.adaptiveFactor]
        norm_num [max_def]
      rw [pyInt, hf, if_pos (by norm_num)]
      norm_num

/-! ## C5 — frequency estimate -/

/-- C5 counterexample: a timestamp history with exactly two entries and a
positive average interval.  The claim says the estimate is then nonzero,
but `calculate_frequency` returns 0 for any history shorter than
`FREQUENCY_WINDOW = 15`. -/
theorem C5_counterexample :
    ([(0 : ℝ), 1 / 10].length = 2 ∧ 2 < Enhanced.FREQUENCY_WINDOW) ∧
    mean (pairDiffs [(0 : ℝ), 1 / 10]) = 1 / 10 ∧
    Enhanced.calculate_frequency [(0 : ℝ), 1 / 10] = 0 := by
  norm_num [mean, pairDiffs, Enhanced.calculate_frequency,
    Enhanced.FREQUENCY_WINDOW]

/-- C5 (amended): the estimate is 0 exactly when the history holds fewer
than `FREQUENCY_WINDOW` timestamps or the average consecutive interval of
the most recent `FREQUENCY_WINDOW` timestamps is 0; otherwise it is the
inverse of that average interval. -/
theorem C5_amended (ts : List ℝ) :
    (Enhanced.calculate_frequency ts = 0 ↔
      ts.length < Enhanced.FREQUENCY_WINDOW ∨
      mean (pairDiffs (lastN Enhanced.FREQUENCY_WINDOW ts)) = 0) ∧
    (Enhanced.FREQUENCY_WINDOW ≤ ts.length →
      mean (pairDiffs (lastN Enhanced.FREQUENCY_WINDOW ts)) ≠ 0 →
      Enhanced.calculate_frequency ts =
        1 / mean (pairDiffs (lastN Enhanced.FREQUENCY_WINDOW ts))) := by
  by_cases hlen : ts.length < Enhanced.FREQUENCY_WINDOW
  · rw [Enhanced.calculate_frequency, if_pos hlen]
    exact ⟨by simp [hlen], fun h => absurd hlen (by omega)⟩
  · have hne : pairDiffs (lastN Enhanced.FREQUENCY_WINDOW ts) ≠ [] := by
      rw [← List.length_pos, pairDiffs_length, length_lastN,
        Enhanced.FREQUENCY_WINDOW]
      rw [Enhanced.FREQUENCY_WINDOW] at hlen
      omega
    rw [Enhanced.calculate_frequency, if_neg hlen, if_neg hne]
    by_cases havg : mean (pairDiffs (lastN Enhanced.FREQUENCY_WINDOW ts)) = 0
    · rw [if_pos havg]
      exact ⟨by simp [havg], fun _ h => absurd havg h⟩
    · rw [if_neg havg]
      refine ⟨⟨fun h => absurd h (one_div_ne_zero havg), ?_⟩, fun _ _ => rfl⟩
      rintro (h | h)
      · exact absurd h hlen
      · exact absurd h havg

/-- C5 witness: a history of 15 timestamps one second apart, where the
amended theorem applies and gives 1 Hz. -/
theorem C5_witness :
    Enhanced.FREQUENCY_WINDOW ≤ Enhanced.fqTimes.length ∧
    mean (pairDiffs (lastN Enhanced.FREQUENCY_WINDOW Enhanced.fqTimes)) = 1 ∧
    Enhanced.calculate_frequency Enhanced.fqTimes = 1 := by
  have hlast : lastN Enhanced.FREQUENCY_WINDOW Enhanced.fqTimes =
      Enhanced.fqTimes :=
    lastN_of_length_le _ _ (by norm_num [Enhanced.fqTimes,
      Enhanced.FREQUENCY_WINDOW])
  have hlen : Enhanced.FREQUENCY_WINDOW ≤ Enhanced.fqTimes.length := by
    norm_num [Enhanced.fqTimes, Enhanced.FREQUENCY_WINDOW]
  have hmean : mean (pairDiffs (lastN Enhanced.FREQUENCY_WINDOW
      Enhanced.fqTimes)) = 1 := by
    rw [hlast]
    norm_num [Enhanced.fqTimes, pairDiffs, mean]
  refine ⟨hlen, hmean, ?_⟩
  rw [(C5_amended Enhanced.fqTimes).2 hlen (by rw [hmean]; norm_num), hmean]
  norm_num

/-! ## C6 — convergence of the smoothing filter under constant input -/

theorem smoothIter_error (adaptive : Bool) (base intensity x y : ℝ) (k : ℕ) :
    ∀ lx ly : ℝ,
      (Enhanced.smoothIter adaptive base intensity x y k (lx, ly)).1 - x =
        (1 - Enhanced.adaptiveFactor adaptive base intensity) ^ k *
          (lx - x) ∧
      (Enhanced.smoothIter adaptive base intensity x y k (lx, ly)).2 - y =
        (1 - Enhanced.adaptiveFactor adaptive base intensity) ^ k *
          (ly - y) := by
  induction k with
  | zero => intro lx ly; simp [Enhanced.smoothIter]
  | succ k ih =>
    intro lx ly
    have hstep :
        Enhanced.smoothIter adaptive base intensity x y (k + 1) (lx, ly) =
        Enhanced.smoothIter adaptive base intensity x y k
          (Enhanced.adaptiveFactor adaptive base intensity * x +
            (1 - Enhanced.adaptiveFactor adaptive base intensity) * lx,
           Enhanced.adaptiveFactor adaptive base intensity * y +
            (1 - Enhanced.adaptiveFactor adaptive base intensity) * ly) :=
      rfl
    rw [hstep]
    obtain ⟨h1, h2⟩ := ih
      (Enhanced.adaptiveFactor adaptive base intensity * x +
        (1 - Enhanced.adaptiveFactor adaptive base intensity) * lx)
      (Enhanced.adaptiveFactor adaptive base intensity * y +
        (1 - Enhanced.adaptiveFactor adaptive base intensity) * ly)
    constructor
    · rw [h1]; ring
    · rw [h2]; ring

/-- C6: iterating the smoothing step with a fixed raw input `(x, y)` and a
fixed intensity drives the internal filter state to `(x, y)` within any
positive tolerance after finitely many iterations, whenever the effective
blend factor lies in `(0, 1]`. -/
theorem C6_constant_input_convergence (adaptive : Bool)
    (base intensity x y lx ly ε : ℝ) (hε : 0 < ε)
    (h0 : 0 < Enhanced.adaptiveFactor adaptive base intensity)
    (h1 : Enhanced.adaptiveFactor adaptive base intensity ≤ 1) :
    ∃ k : ℕ,
      |(Enhanced.smoothIter adaptive base intensity x y k (lx, ly)).1 - x|
        < ε ∧
      |(Enhanced.smoothIter adaptive base intensity x y k (lx, ly)).2 - y|
        < ε := by
  set r := 1 - Enhanced.adaptiveFactor adaptive base intensity with hr
  have hr0 : 0 ≤ r := by rw [hr]; linarith
  have hr1 : r < 1 := by rw [hr]; linarith
  set C := |lx - x| + |ly - y| + 1 with hC
  have hCpos : (0 : ℝ) < C := by positivity
  obtain ⟨k, hk⟩ := exists_pow_lt_of_lt_one (div_pos hε hCpos) hr1
  have hrk : r ^ k * C < ε := (lt_div_iff₀ hCpos).mp hk
  have hrknn : (0 : ℝ) ≤ r ^ k := pow_nonneg hr0 k
  obtain ⟨h1e, h2e⟩ := smoothIter_error adaptive base intensity x y k lx ly
  refine ⟨k, ?_, ?_⟩
  · rw [h1e, abs_mul, abs_pow, abs_of_nonneg hr0]
    calc r ^ k * |lx - x| ≤ r ^ k * C := by
          apply mul_le_mul_of_nonneg_left _ hrknn
          have := abs_nonneg (ly - y)
          rw [hC]; linarith
      _ < ε := hrk
  · rw [h2e, abs_mul, abs_pow, abs_of_nonneg hr0]
    calc r ^ k * |ly - y| ≤ r ^ k * C := by
          apply mul_le_mul_of_nonneg_left _ hrknn
          have := abs_nonneg (lx - x)
          rw [hC]; linarith
      _ < ε := hrk

/-- C6 witness: with adaptive smoothing on, base factor 0.4 and intensity 0
the effective factor is 0.4 ∈ (0, 1], and the iteration from `(0, 0)` under
constant input `(10, 10)` converges within tolerance 1. -/
theorem C6_witness :
    (0 : ℝ) < Enhanced.adaptiveFactor true 0.4 0 ∧
    Enhanced.adaptiveFactor true 0.4 0 ≤ 1 ∧
    ∃ k : ℕ,
      |(Enhanced.smoothIter true 0.4 0 10 10 k (0, 0)).1 - 10| < 1 ∧
      |(Enhanced.smoothIter true 0.4 0 10 10 k (0, 0)).2 - 10| < 1 := by
  have hf : Enhanced.adaptiveFactor true 0.4 0 = 0.4 := by
    rw [Enhanced.adaptiveFactor]; norm_num [max_def]
  refine ⟨by rw [hf]; norm_num, by rw [hf]; norm_num, ?_⟩
  exact C6_constant_input_convergence true 0.4 0 10 10 0 0 1 (by norm_num)
    (by rw [hf]; norm_num) (by rw [hf]; norm_num)

/-! ## C7 — zero-delta samples -/

/-- C7 counterexample: in the serial variant (`tremor_filter.py`), the
record `M,0,0` — a zero delta while stabilization is ACTIVE — is *not* a
no-op: `detect_tremor` is called unconditionally, so `(0, 0)` is appended
to `mouse_history`.  Only the cursor move is suppressed. -/
theorem C7_counterexample :
    Serial.serialInit.stabilization_active = true ∧
    Serial.serialInit.mouse_history = [] ∧
    (Serial.process_line Serial.serialInit "M,0,0").1.mouse_history =
      [((0 : ℝ), 0)] ∧
    (Serial.process_line Serial.serialInit "M,0,0").2 =
      Serial.SerialOutput.none := by
  have hsplit : splitComma "M,0,0" = ["M", "0", "0"] := by decide
  have h0 : parseInt? "0" = some 0 := by decide
  refine ⟨rfl, rfl, ?_⟩
  rw [Serial.process_line, hsplit]
  simp only [Serial.process_parts, h0]
  norm_num [Serial.processM, Serial.detect_tremor, dequePush, lastN,
    Serial.serialInit, Serial.SAMPLE_SIZE]

/-- C7 (amended): in the polling monitor of `enhanced_tremor_filter.py`
(and the hook/listener variants, which share the guard), a sample whose
computed delta is `(0, 0)` while the controller is ACTIVE leaves the entire
state — window, filter state, detection flag — unchanged and emits no
correction.  In the serial variant the window and detection flag are
updated (see the counterexample), though no cursor move is emitted for it
on an empty history. -/
theorem C7_amended_zero_delta_noop (s : Enhanced.MonitorState) (cx cy now : ℝ)
    (_hact : s.stabilization_active = true)
    (hx : cx = s.last_real_x) (hy : cy = s.last_real_y) :
    Enhanced.mouse_monitor_step s cx cy now = (s, none) := by
  subst hx; subst hy
  simp only [Enhanced.mouse_monitor_step]
  rw [if_neg (by simp)]

/-- C7 witness: an ACTIVE controller at cursor `(5, 5)` observing `(5, 5)`
again takes no action. -/
theorem C7_witness :
    Enhanced.mAct.stabilization_active = true ∧
    (5 : ℝ) = Enhanced.mAct.last_real_x ∧
    (5 : ℝ) = Enhanced.mAct.last_real_y ∧
    Enhanced.mouse_monitor_step Enhanced.mAct 5 5 0 =
      (Enhanced.mAct, none) := by
  exact ⟨rfl, rfl, rfl,
    C7_amended_zero_delta_noop Enhanced.mAct 5 5 0 rfl rfl rfl⟩

/-! ## C9 — the three histories stay aligned -/

theorem lastN_append (n : ℕ) (l m : List α) :
    lastN n (lastN n l ++ m) = lastN n (l ++ m) := by
  unfold lastN
  rw [List.reverse_append, List.reverse_reverse, List.reverse_append,
    List.take_append_eq_append_take, List.take_append_eq_append_take,
    List.take_take, Nat.min_eq_left (Nat.sub_le _ _)]

theorem detect_tremor_histories (s : Enhanced.TremorState)
    (dx dy cx cy now : ℝ) :
    (Enhanced.detect_tremor s dx dy cx cy now).2.delta_history =
      dequePush Enhanced.SAMPLE_SIZE s.delta_history (dx, dy) ∧
    (Enhanced.detect_tremor s dx dy cx cy now).2.position_history =
      dequePush Enhanced.SAMPLE_SIZE s.position_history (cx, cy) ∧
    (Enhanced.detect_tremor s dx dy cx cy now).2.timestamp_history =
      dequePush Enhanced.SAMPLE_SIZE s.timestamp_history now := by
  simp only [Enhanced.detect_tremor]
  split <;> simp

theorem runOut_histories (ss : List Enhanced.Sample) :
    ∀ s : Enhanced.TremorState,
      s.delta_history.length ≤ Enhanced.SAMPLE_SIZE →
      s.position_history.length ≤ Enhanced.SAMPLE_SIZE →
      s.timestamp_history.length ≤ Enhanced.SAMPLE_SIZE →
      (Enhanced.runOut s ss).1.delta_history =
        lastN Enhanced.SAMPLE_SIZE
          (s.delta_history ++ ss.map (fun a => (a.dx, a.dy))) ∧
      (Enhanced.runOut s ss).1.position_history =
        lastN Enhanced.SAMPLE_SIZE
          (s.position_history ++ ss.map (fun a => (a.cx, a.cy))) ∧
      (Enhanced.runOut s ss).1.timestamp_history =
        lastN Enhanced.SAMPLE_SIZE
          (s.timestamp_history ++ ss.map (fun a => a.t)) := by
  induction ss with
  | nil =>
    intro s h1 h2 h3
    simp only [Enhanced.runOut, List.map_nil, List.append_nil]
    exact ⟨(lastN_of_length_le _ _ h1).symm, (lastN_of_length_le _ _ h2).symm,
      (lastN_of_length_le _ _ h3).symm⟩
  | cons a tl ih =>
    intro s h1 h2 h3
    obtain ⟨hd, hp, ht⟩ := detect_tremor_histories s a.dx a.dy a.cx a.cy a.t
    have hrun : (Enhanced.runOut s (a :: tl)).1 =
        (Enhanced.runOut
          (Enhanced.detect_tremor s a.dx a.dy a.cx a.cy a.t).2 tl).1 := rfl
    rw [hrun]
    have hl1 : (Enhanced.detect_tremor s a.dx a.dy a.cx a.cy
        a.t).2.delta_history.length ≤ Enhanced.SAMPLE_SIZE := by
      rw [hd, length_dequePush]; omega
    have hl2 : (Enhanced.detect_tremor s a.dx a.dy a.cx a.cy
        a.t).2.position_history.length ≤ Enhanced.SAMPLE_SIZE := by
      rw [hp, length_dequePush]; omega
    have hl3 : (Enhanced.detect_tremor s a.dx a.dy a.cx a.cy
        a.t).2.timestamp_history.length ≤ Enhanced.SAMPLE_SIZE := by
      rw [ht, length_dequePush]; omega
    obtain ⟨g1, g2, g3⟩ :=
      ih (Enhanced.detect_tremor s a.dx a.dy a.cx a.cy a.t).2 hl1 hl2 hl3
    refine ⟨?_, ?_, ?_⟩
    · rw [g1, hd, dequePush, lastN_append, List.map_cons]
      simp [List.append_assoc]
    · rw [g2, hp, dequePush, lastN_append, List.map_cons]
      simp [List.append_assoc]
    · rw [g3, ht, dequePush, lastN_append, List.map_cons]
      simp [List.append_assoc]

/-- C9: after any run of the classifier from its initial state, the three
history deques are exactly the last `SAMPLE_SIZE` projections of the same
consumed sample sequence — so they always have equal length and their
entries at each index come from the same sample.  `detect_tremor` is the
only operation touching the deques, so every operation preserves the
invariant. -/
theorem C9_parallel_histories (ss : List Enhanced.Sample) :
    (Enhanced.runOut Enhanced.initState ss).1.delta_history =
      lastN Enhanced.SAMPLE_SIZE (ss.map (fun a => (a.dx, a.dy))) ∧
    (Enhanced.runOut Enhanced.initState ss).1.position_history =
      lastN Enhanced.SAMPLE_SIZE (ss.map (fun a => (a.cx, a.cy))) ∧
    (Enhanced.runOut Enhanced.initState ss).1.timestamp_history =
      lastN Enhanced.SAMPLE_SIZE (ss.map (fun a => a.t)) ∧
    (Enhanced.runOut Enhanced.initState ss).1.delta_history.length =
      (Enhanced.runOut Enhanced.initState ss).1.position_history.length ∧
    (Enhanced.runOut Enhanced.initState ss).1.position_history.length =
      (Enhanced.runOut Enhanced.initState ss).1.timestamp_history.length := by
  obtain ⟨h1, h2, h3⟩ := runOut_histories ss Enhanced.initState
    (by simp [Enhanced.initState]) (by simp [Enhanced.initState])
    (by simp [Enhanced.initState])
  rw [show Enhanced.initState.delta_history = [] from rfl,
    List.nil_append] at h1
  rw [show Enhanced.initState.position_history = [] from rfl,
    List.nil_append] at h2
  rw [show Enhanced.initState.timestamp_history = [] from rfl,
    List.nil_append] at h3
  refine ⟨h1, h2, h3, ?_, ?_⟩
  · rw [h1, h2, length_lastN, length_lastN, List.length_map, List.length_map]
  · rw [h2, h3, length_lastN, length_lastN, List.length_map, List.length_map]

/-! ## C4 — below half capacity the classifier reports nothing -/

theorem detect_tremor_early (s : Enhanced.TremorState) (dx dy cx cy now : ℝ)
    (h : (dequePush Enhanced.SAMPLE_SIZE s.delta_history (dx, dy)).length <
      Enhanced.SAMPLE_SIZE / 2) :
    Enhanced.detect_tremor s dx dy cx cy now =
      (false,
       { s with
          delta_history :=
            dequePush Enhanced.SAMPLE_SIZE s.delta_history (dx, dy),
          position_history :=
            dequePush Enhanced.SAMPLE_SIZE s.position_history (cx, cy),
          timestamp_history :=
            dequePush Enhanced.SAMPLE_SIZE s.timestamp_history now }) := by
  simp only [Enhanced.detect_tremor]
  rw [if_pos h]

theorem runOut_below_half (ss : List Enhanced.Sample) :
    ∀ s : Enhanced.TremorState,
      s.delta_history.length + ss.length < Enhanced.SAMPLE_SIZE / 2 →
      s.tremor_intensity = 0 →
      (∀ b ∈ (Enhanced.runOut s ss).2, b = false) ∧
      (Enhanced.runOut s ss).1.tremor_intensity = 0 := by
  induction ss with
  | nil =>
    intro s _ hi
    exact ⟨by simp [Enhanced.runOut], by simpa [Enhanced.runOut] using hi⟩
  | cons a tl ih =>
    intro s h hi
    have hlen : (dequePush Enhanced.SAMPLE_SIZE s.delta_history
        (a.dx, a.dy)).length < Enhanced.SAMPLE_SIZE / 2 := by
      rw [length_dequePush]
      simp only [List.length_cons] at h
      omega
    have hearly := detect_tremor_early s a.dx a.dy a.cx a.cy a.t hlen
    have hrun : Enhanced.runOut s (a :: tl) =
        ((Enhanced.runOut (Enhanced.detect_tremor s a.dx a.dy a.cx a.cy
          a.t).2 tl).1,
         (Enhanced.detect_tremor s a.dx a.dy a.cx a.cy a.t).1 ::
          (Enhanced.runOut (Enhanced.detect_tremor s a.dx a.dy a.cx a.cy
            a.t).2 tl).2) := rfl
    rw [hrun, hearly]
    have hrest := ih
      { s with
        delta_history :=
          dequePush Enhanced.SAMPLE_SIZE s.delta_history (a.dx, a.dy),
        position_history :=
          dequePush Enhanced.SAMPLE_SIZE s.position_history (a.cx, a.cy),
        timestamp_history :=
          dequePush Enhanced.SAMPLE_SIZE s.timestamp_history a.t }
      (by simp only [length_dequePush, List.length_cons] at h ⊢; omega)
      (by simpa using hi)
    refine ⟨?_, hrest.2⟩
    intro b hb
    rcases List.mem_cons.mp hb with hb | hb
    · exact hb
    · exact hrest.1 b hb

/-- C4: feeding any sequence of fewer than `SAMPLE_SIZE / 2` samples from
the initial empty-window state, every returned detection flag is `false`
and the stored tremor intensity stays 0. -/
theorem C4_below_half_capacity (ss : List Enhanced.Sample)
    (h : ss.length < Enhanced.SAMPLE_SIZE / 2) :
    (∀ b ∈ (Enhanced.runOut Enhanced.initState ss).2, b = false) ∧
    (Enhanced.runOut Enhanced.initState ss).1.tremor_intensity = 0 :=
  runOut_below_half ss Enhanced.initState
    (by simpa [Enhanced.initState] using h) rfl

/-- C4 witness: a single sample is below half capacity and yields
`detected = false`, intensity 0. -/
theorem C4_witness :
    ([(⟨1, 1, 1, 1, 0⟩ : Enhanced.Sample)].length <
      Enhanced.SAMPLE_SIZE / 2) ∧
    (∀ b ∈ (Enhanced.runOut Enhanced.initState
      [(⟨1, 1, 1, 1, 0⟩ : Enhanced.Sample)]).2, b = false) ∧
    (Enhanced.runOut Enhanced.initState
      [(⟨1, 1, 1, 1, 0⟩ : Enhanced.Sample)]).1.tremor_intensity = 0 := by
  refine ⟨by norm_num [Enhanced.SAMPLE_SIZE], ?_, ?_⟩
  · exact (C4_below_half_capacity [⟨1, 1, 1, 1, 0⟩]
      (by norm_num [Enhanced.SAMPLE_SIZE])).1
  · exact (C4_below_half_capacity [⟨1, 1, 1, 1, 0⟩]
      (by norm_num [Enhanced.SAMPLE_SIZE])).2

/-! ## C8 — malformed motion records -/

/-- C8: an `M,<a>,<b>` record whose fields fail integer parsing is discarded
with the offending line logged and the whole module state (window, filter
state, detection flag) exactly unchanged. -/
theorem C8_malformed_record_noop (s : Serial.SerialState) (line a b : String)
    (hsplit : splitComma line = ["M", a, b])
    (hbad : parseInt? a = none ∨ parseInt? b = none) :
    Serial.process_line s line = (s, Serial.SerialOutput.parseError line) := by
  rw [Serial.process_line, hsplit]
  rcases hbad with h | h
  · simp [Serial.process_parts, h]
  · cases ha : parseInt? a <;> simp [Serial.process_parts, h, ha]

/-- C8 witness: the record `M,x,7` has a non-numeric first motion field and
leaves the initial state untouched. -/
theorem C8_witness :
    splitComma "M,x,7" = ["M", "x", "7"] ∧
    parseInt? "x" = none ∧
    Serial.process_line Serial.serialInit "M,x,7" =
      (Serial.serialInit, Serial.SerialOutput.parseError "M,x,7") := by
  refine ⟨by decide, by decide, ?_⟩
  exact C8_malformed_record_noop Serial.serialInit "M,x,7" "x" "7"
    (by decide) (Or.inl (by decide))

/-! ## C2 — score, detection threshold, intensity and causes -/

theorem selectPos_length_le (l : List (String × ℝ)) :
    (Enhanced.selectPos l).length ≤ l.length := by
  induction l with
  | nil => simp [Enhanced.selectPos]
  | cons a tl ih =>
    obtain ⟨n, v⟩ := a
    simp only [Enhanced.selectPos, List.length_append, List.length_cons]
    split <;> simp <;> omega

theorem sum_eq_selectPos_length (l : List (String × ℝ))
    (hl : ∀ p ∈ l, p.2 = 0 ∨ p.2 = 1) :
    (l.map Prod.snd).sum = ((Enhanced.selectPos l).length : ℝ) := by
  induction l with
  | nil => simp [Enhanced.selectPos]
  | cons a tl ih =>
    obtain ⟨n, v⟩ := a
    have hv : v = 0 ∨ v = 1 := hl (n, v) (by simp)
    have htl := ih (fun p hp => hl p (by simp [hp]))
    rcases hv with hv | hv <;> subst hv
    · simp only [Enhanced.selectPos, List.map_cons, List.sum_cons]
      rw [if_neg (by norm_num)]
      simp [htl]
    · simp only [Enhanced.selectPos, List.map_cons, List.sum_cons]
      rw [if_pos (by norm_num)]
      simp only [List.singleton_append, List.length_cons]
      rw [htl]
      push_cast
      ring

theorem criteriaScores_zero_one (dh ph : List (ℝ × ℝ)) (th : List ℝ)
    (dx dy : ℝ) :
    ∀ p ∈ Enhanced.criteriaScores dh ph th dx dy, p.2 = 0 ∨ p.2 = 1 := by
  intro p hp
  simp only [Enhanced.criteriaScores, List.mem_cons, List.mem_singleton,
    List.not_mem_nil, or_false] at hp
  rcases hp with hp | hp | hp | hp | hp <;>
    · rw [hp]
      split_ifs <;> simp

theorem criteriaScores_length (dh ph : List (ℝ × ℝ)) (th : List ℝ)
    (dx dy : ℝ) :
    (Enhanced.criteriaScores dh ph th dx dy).length = 5 := by
  simp [Enhanced.criteriaScores]

/-- C2 (amended): once the post-append window holds at least
`SAMPLE_SIZE / 2` samples, the tremor score equals (number of fired
criteria)/5, `detected` holds iff at least 2 of the 5 criteria fired, and
the stored intensity equals the score.  The reported cause set equals the
set of fired criteria only when `detected` is true; when `detected` is
false the code reports the literal `"None"`, even if one criterion fired
(see the counterexample). -/
theorem C2_score_detection_intensity (s : Enhanced.TremorState)
    (dx dy cx cy now : ℝ) (dh ph : List (ℝ × ℝ)) (th : List ℝ)
    (hdh : dh = dequePush Enhanced.SAMPLE_SIZE s.delta_history (dx, dy))
    (hph : ph = dequePush Enhanced.SAMPLE_SIZE s.position_history (cx, cy))
    (hth : th = dequePush Enhanced.SAMPLE_SIZE s.timestamp_history now)
    (h : Enhanced.SAMPLE_SIZE / 2 ≤ dh.length) :
    Enhanced.tremorScore dh ph th dx dy =
      ((Enhanced.detectedTypes dh ph th dx dy).length : ℝ) / 5 ∧
    ((Enhanced.detect_tremor s dx dy cx cy now).1 = true ↔
      2 ≤ (Enhanced.detectedTypes dh ph th dx dy).length) ∧
    (Enhanced.detect_tremor s dx dy cx cy now).2.tremor_intensity =
      Enhanced.tremorScore dh ph th dx dy ∧
    ((Enhanced.detect_tremor s dx dy cx cy now).1 = true →
      (Enhanced.detect_tremor s dx dy cx cy now).2.tremor_type =
        String.intercalate "+" (Enhanced.detectedTypes dh ph th dx dy)) ∧
    ((Enhanced.detect_tremor s dx dy cx cy now).1 = false →
      (Enhanced.detect_tremor s dx dy cx cy now).2.tremor_type = "None") := by
  subst hdh; subst hph; subst hth
  have hnot : ¬ ((dequePush Enhanced.SAMPLE_SIZE s.delta_history
      (dx, dy)).length < Enhanced.SAMPLE_SIZE / 2) := by omega
  have hscore : Enhanced.tremorScore
      (dequePush Enhanced.SAMPLE_SIZE s.delta_history (dx, dy))
      (dequePush Enhanced.SAMPLE_SIZE s.position_history (cx, cy))
      (dequePush Enhanced.SAMPLE_SIZE s.timestamp_history now) dx dy =
      ((Enhanced.detectedTypes
        (dequePush Enhanced.SAMPLE_SIZE s.delta_history (dx, dy))
        (dequePush Enhanced.SAMPLE_SIZE s.position_history (cx, cy))
        (dequePush Enhanced.SAMPLE_SIZE s.timestamp_history now) dx
        dy).length : ℝ) / 5 := by
    rw [Enhanced.tremorScore, Enhanced.detectedTypes,
      sum_eq_selectPos_length _ (criteriaScores_zero_one _ _ _ _ _)]
  have hfst : (Enhanced.detect_tremor s dx dy cx cy now).1 =
      decide (Enhanced.tremorScore
        (dequePush Enhanced.SAMPLE_SIZE s.delta_history (dx, dy))
        (dequePush Enhanced.SAMPLE_SIZE s.position_history (cx, cy))
        (dequePush Enhanced.SAMPLE_SIZE s.timestamp_history now) dx dy
        > 0.3) := by
    simp only [Enhanced.detect_tremor]
    rw [if_neg hnot]
  have hint : (Enhanced.detect_tremor s dx dy cx cy now).2.tremor_intensity =
      Enhanced.tremorScore
        (dequePush Enhanced.SAMPLE_SIZE s.delta_history (dx, dy))
        (dequePush Enhanced.SAMPLE_SIZE s.position_history (cx, cy))
        (dequePush Enhanced.SAMPLE_SIZE s.timestamp_history now) dx dy := by
    simp only [Enhanced.detect_tremor]
    rw [if_neg hnot]
  have htype : (Enhanced.detect_tremor s dx dy cx cy now).2.tremor_type =
      (if Enhanced.tremorScore
          (dequePush Enhanced.SAMPLE_SIZE s.delta_history (dx, dy))
          (dequePush Enhanced.SAMPLE_SIZE s.position_history (cx, cy))
          (dequePush Enhanced.SAMPLE_SIZE s.timestamp_history now) dx dy
          > 0.3 then
        String.intercalate "+" (Enhanced.detectedTypes
          (dequePush Enhanced.SAMPLE_SIZE s.delta_history (dx, dy))
          (dequePush Enhanced.SAMPLE_SIZE s.position_history (cx, cy))
          (dequePush Enhanced.SAMPLE_SIZE s.timestamp_history now) dx dy)
      else "None") := by
    simp only [Enhanced.detect_tremor]
    rw [if_neg hnot]
  have hcle : (Enhanced.detectedTypes
      (dequePush Enhanced.SAMPLE_SIZE s.delta_history (dx, dy))
      (dequePush Enhanced.SAMPLE_SIZE s.position_history (cx, cy))
      (dequePush Enhanced.SAMPLE_SIZE s.timestamp_history now) dx
      dy).length ≤ 5 := by
    rw [Enhanced.detectedTypes]
    have h5 := selectPos_length_le (Enhanced.criteriaScores
      (dequePush Enhanced.SAMPLE_SIZE s.delta_history (dx, dy))
      (dequePush Enhanced.SAMPLE_SIZE s.position_history (cx, cy))
      (dequePush Enhanced.SAMPLE_SIZE s.timestamp_history now) dx dy)
    rw [criteriaScores_length] at h5
    exact h5
  have hiff : (Enhanced.tremorScore
      (dequePush Enhanced.SAMPLE_SIZE s.delta_history (dx, dy))
      (dequePush Enhanced.SAMPLE_SIZE s.position_history (cx, cy))
      (dequePush Enhanced.SAMPLE_SIZE s.timestamp_history now) dx dy
      > 0.3) ↔
      2 ≤ (Enhanced.detectedTypes
        (dequePush Enhanced.SAMPLE_SIZE s.delta_history (dx, dy))
        (dequePush Enhanced.SAMPLE_SIZE s.position_history (cx, cy))
        (dequePush Enhanced.SAMPLE_SIZE s.timestamp_history now) dx
        dy).length := by
    rw [hscore, gt_iff_lt, lt_div_iff₀ (by norm_num : (0 : ℝ) < 5)]
    rw [show (0.3 : ℝ) * 5 = 1.5 by norm_num]
    constructor
    · intro h'
      by_contra hc
      push_neg at hc
      have hle1 : (Enhanced.detectedTypes
          (dequePush Enhanced.SAMPLE_SIZE s.delta_history (dx, dy))
          (dequePush Enhanced.SAMPLE_SIZE s.position_history (cx, cy))
          (dequePush Enhanced.SAMPLE_SIZE s.timestamp_history now) dx
          dy).length ≤ 1 := by omega
      have : ((Enhanced.detectedTypes
          (dequePush Enhanced.SAMPLE_SIZE s.delta_history (dx, dy))
          (dequePush Enhanced.SAMPLE_SIZE s.position_history (cx, cy))
          (dequePush Enhanced.SAMPLE_SIZE s.timestamp_history now) dx
          dy).length : ℝ) ≤ 1 := by exact_mod_cast hle1
      linarith
    · intro h'
      have : (2 : ℝ) ≤ ((Enhanced.detectedTypes
          (dequePush Enhanced.SAMPLE_SIZE s.delta_history (dx, dy))
          (dequePush Enhanced.SAMPLE_SIZE s.position_history (cx, cy))
          (dequePush Enhanced.SAMPLE_SIZE s.timestamp_history now) dx
          dy).length : ℝ) := by exact_mod_cast h'
      linarith
  refine ⟨hscore, ?_, hint, ?_, ?_⟩
  · rw [hfst, decide_eq_true_iff]
    exact hiff
  · intro hdet
    rw [hfst, decide_eq_true_iff] at hdet
    rw [htype, if_pos hdet]
  · intro hdet
    rw [hfst, decide_eq_false_iff_not] at hdet
    rw [htype, if_neg hdet]

theorem cw_push_deltas :
    dequePush Enhanced.SAMPLE_SIZE Enhanced.cwPrev.delta_history
      ((-1 : ℝ), 0) = Enhanced.cwDeltas := rfl

theorem cw_push_positions :
    dequePush Enhanced.SAMPLE_SIZE Enhanced.cwPrev.position_history
      ((0 : ℝ), 0) = Enhanced.cwPositions := rfl

theorem cw_push_times :
    dequePush Enhanced.SAMPLE_SIZE Enhanced.cwPrev.timestamp_history
      (11 : ℝ) = Enhanced.cwTimes := rfl

theorem cw_criteria :
    Enhanced.criteriaScores Enhanced.cwDeltas Enhanced.cwPositions
      Enhanced.cwTimes (-1) 0 =
    [("Frequency", 0), ("Directional", 1), ("Magnitude", 0),
     ("Jitter", 0), ("Variance", 0)] := by
  have hmag : Enhanced.cwDeltas.map (fun d => calculate_magnitude d.1 d.2) =
      [1, 1, 1, 1, 1, 1, 1, 1, 1, 1, 1, 1] := by
    norm_num [Enhanced.cwDeltas, calculate_magnitude, Real.sqrt_one]
  have hcos : Enhanced.cosDirections Enhanced.cwDeltas =
      [-1, -1, -1, -1, -1, -1, -1, -1, -1, -1, -1] := by
    norm_num [Enhanced.cwDeltas, Enhanced.cosDirections, calculate_magnitude,
      Real.sqrt_one]
  have hfreq : Enhanced.calculate_frequency Enhanced.cwTimes = 0 := by
    norm_num [Enhanced.calculate_frequency, Enhanced.cwTimes,
      Enhanced.FREQUENCY_WINDOW]
  have hjit : Enhanced.calculate_jitter Enhanced.cwPositions = 2 := by
    norm_num [Enhanced.calculate_jitter, Enhanced.cwPositions, pairDiffs2,
      calculate_magnitude, mean, sqrt_four, List.cons_ne_nil]
  have hcur : calculate_magnitude (-1) 0 = 1 := by
    norm_num [calculate_magnitude, Real.sqrt_one]
  simp only [Enhanced.criteriaScores, hmag, hcos, hfreq, hjit, hcur]
  norm_num [mean, std, negCount, Real.sqrt_zero,
    Enhanced.MIN_TREMOR_FREQUENCY, Enhanced.MAX_TREMOR_FREQUENCY,
    Enhanced.SHAKE_THRESHOLD, Enhanced.DIRECTION_CHANGE_THRESHOLD,
    Enhanced.STD_DEV_THRESHOLD, Enhanced.JITTER_THRESHOLD, List.cons_ne_nil]

theorem cw_score :
    Enhanced.tremorScore Enhanced.cwDeltas Enhanced.cwPositions
      Enhanced.cwTimes (-1) 0 = 1 / 5 := by
  rw [Enhanced.tremorScore, cw_criteria]
  norm_num

theorem cw_types :
    Enhanced.detectedTypes Enhanced.cwDeltas Enhanced.cwPositions
      Enhanced.cwTimes (-1) 0 = ["Directional"] := by
  rw [Enhanced.detectedTypes, cw_criteria]
  norm_num [Enhanced.selectPos]

/-- C2 counterexample: a 12-sample left–right oscillation fires exactly one
criterion (`Directional`), so `detected` is false; the code then reports
the cause string `"None"` even though the set of fired criteria is
`{Directional}`, refuting the unconditional "reported cause set equals the
fired set" clause. -/
theorem C2_counterexample :
    Enhanced.SAMPLE_SIZE / 2 ≤ Enhanced.cwDeltas.length ∧
    Enhanced.detectedTypes Enhanced.cwDeltas Enhanced.cwPositions
      Enhanced.cwTimes (-1) 0 = ["Directional"] ∧
    (Enhanced.detect_tremor Enhanced.cwPrev (-1) 0 0 0 11).1 = false ∧
    (Enhanced.detect_tremor Enhanced.cwPrev (-1) 0 0 0 11).2.tremor_type =
      "None" := by
  have hnot : ¬ ((dequePush Enhanced.SAMPLE_SIZE
      Enhanced.cwPrev.delta_history ((-1 : ℝ), 0)).length <
      Enhanced.SAMPLE_SIZE / 2) := by
    rw [cw_push_deltas]
    norm_num [Enhanced.cwDeltas, Enhanced.SAMPLE_SIZE]
  refine ⟨by norm_num [Enhanced.cwDeltas, Enhanced.SAMPLE_SIZE], cw_types,
    ?_, ?_⟩
  · simp only [Enhanced.detect_tremor]
    rw [if_neg hnot]
    simp only [cw_push_deltas, cw_push_positions, cw_push_times, cw_score]
    rw [decide_eq_false_iff_not]
    norm_num
  · simp only [Enhanced.detect_tremor]
    rw [if_neg hnot]
    simp only [cw_push_deltas, cw_push_positions, cw_push_times, cw_score]
    rw [if_neg (by norm_num)]

/-- C2 witness: the same 12-sample window satisfies the amended theorem's
hypotheses, giving score 1/5 = (#fired)/5 and `detected ↔ 2 ≤ #fired`. -/
theorem C2_witness :
    Enhanced.cwDeltas =
      dequePush Enhanced.SAMPLE_SIZE Enhanced.cwPrev.delta_history
        ((-1 : ℝ), 0) ∧
    Enhanced.SAMPLE_SIZE / 2 ≤ Enhanced.cwDeltas.length ∧
    Enhanced.tremorScore Enhanced.cwDeltas Enhanced.cwPositions
      Enhanced.cwTimes (-1) 0 =
      ((Enhanced.detectedTypes Enhanced.cwDeltas Enhanced.cwPositions
        Enhanced.cwTimes (-1) 0).length : ℝ) / 5 ∧
    ((Enhanced.detect_tremor Enhanced.cwPrev (-1) 0 0 0 11).1 = true ↔
      2 ≤ (Enhanced.detectedTypes Enhanced.cwDeltas Enhanced.cwPositions
        Enhanced.cwTimes (-1) 0).length) ∧
    (Enhanced.detect_tremor Enhanced.cwPrev (-1) 0 0 0
      11).2.tremor_intensity =
      Enhanced.tremorScore Enhanced.cwDeltas Enhanced.cwPositions
        Enhanced.cwTimes (-1) 0 := by
  have hlen : Enhanced.SAMPLE_SIZE / 2 ≤ Enhanced.cwDeltas.length := by
    norm_num [Enhanced.cwDeltas, Enhanced.SAMPLE_SIZE]
  obtain ⟨g1, g2, g3, _, _⟩ := C2_score_detection_intensity Enhanced.cwPrev
    (-1) 0 0 0 11 Enhanced.cwDeltas Enhanced.cwPositions Enhanced.cwTimes
    cw_push_deltas.symm cw_push_positions.symm cw_push_times.symm hlen
  exact ⟨cw_push_deltas.symm, hlen, g1, g2, g3⟩

/-! ## C10 — the two direction-change criteria agree on nonzero windows -/

theorem calculate_magnitude_pos (x y : ℝ) (h : x ≠ 0 ∨ y ≠ 0) :
    0 < calculate_magnitude x y := by
  rw [calculate_magnitude, Real.sqrt_pos]
  rcases h with h | h
  · have := pow_two_pos_of_ne_zero h
    have := sq_nonneg y
    linarith
  · have := pow_two_pos_of_ne_zero h
    have := sq_nonneg x
    linarith

theorem negCount_cons (x : ℝ) (l : List ℝ) :
    negCount (x :: l) = (if x < 0 then 1 else 0) + negCount l := by
  simp [negCount]

/-- C10: on any window of deltas in which every delta is a non-zero vector,
the baseline classifier's `directions` list (raw dot products) and the
enhanced classifier's `directions` list (cosines) evaluate the same number
of consecutive pairs, and the number of negative entries is the same in
both, so the two direction-change criteria agree at equal thresholds. -/
theorem C10_direction_criteria_agree (ds : List (ℝ × ℝ))
    (h : ∀ d ∈ ds, d ≠ ((0 : ℝ), (0 : ℝ))) :
    (Serial.dotDirections ds).length =
      (Enhanced.cosDirections ds).length ∧
    negCount (Serial.dotDirections ds) =
      negCount (Enhanced.cosDirections ds) := by
  induction ds with
  | nil => simp [Serial.dotDirections, Enhanced.cosDirections]
  | cons a tl ih =>
    cases tl with
    | nil =>
      obtain ⟨ax, ay⟩ := a
      simp [Serial.dotDirections, Enhanced.cosDirections]
    | cons b rest =>
      obtain ⟨ax, ay⟩ := a
      obtain ⟨bx, b2⟩ := b
      have ha : ax ≠ 0 ∨ ay ≠ 0 := by
        have := h (ax, ay) (by simp)
        by_contra hc
        push_neg at hc
        exact this (by simp [hc.1, hc.2])
      have hb : bx ≠ 0 ∨ b2 ≠ 0 := by
        have := h (bx, b2) (by simp [List.mem_cons])
        by_contra hc
        push_neg at hc
        exact this (by simp [hc.1, hc.2])
      have hm : 0 < calculate_magnitude ax ay * calculate_magnitude bx b2 :=
        mul_pos (calculate_magnitude_pos _ _ ha)
          (calculate_magnitude_pos _ _ hb)
      have hdot : Serial.dotDirections ((ax, ay) :: (bx, b2) :: rest) =
          (ax * bx + ay * b2) :: Serial.dotDirections ((bx, b2) :: rest) := by
        simp only [Serial.dotDirections]
        rw [if_pos ha, List.singleton_append]
      have hcos : Enhanced.cosDirections ((ax, ay) :: (bx, b2) :: rest) =
          ((ax * bx + ay * b2) /
            (calculate_magnitude ax ay * calculate_magnitude bx b2)) ::
            Enhanced.cosDirections ((bx, b2) :: rest) := by
        simp only [Enhanced.cosDirections]
        rw [if_pos ⟨ha, hb⟩, if_pos hm.ne', List.singleton_append]
      have hsign : (ax * bx + ay * b2) /
          (calculate_magnitude ax ay * calculate_magnitude bx b2) < 0 ↔
          ax * bx + ay * b2 < 0 := by
        rw [div_neg_iff]
        constructor
        · rintro (⟨_, hneg⟩ | ⟨hd, _⟩)
          · linarith
          · exact hd
        · intro hd
          exact Or.inr ⟨hd, hm⟩
      obtain ⟨ih1, ih2⟩ := ih (fun d hd => h d (by simp [hd]))
      constructor
      · rw [hdot, hcos, List.length_cons, List.length_cons, ih1]
      · rw [hdot, hcos, negCount_cons, negCount_cons, ih2]
        congr 1
        rw [if_congr hsign rfl rfl]

/-- C10 witness: the two-delta window `[(1,0), (-1,0)]` of non-zero deltas,
where both variants evaluate one pair and count one reversal. -/
theorem C10_witness :
    (∀ d ∈ [((1 : ℝ), (0 : ℝ)), (-1, 0)], d ≠ ((0 : ℝ), (0 : ℝ))) ∧
    (Serial.dotDirections [((1 : ℝ), (0 : ℝ)), (-1, 0)]).length =
      (Enhanced.cosDirections [((1 : ℝ), (0 : ℝ)), (-1, 0)]).length ∧
    negCount (Serial.dotDirections [((1 : ℝ), (0 : ℝ)), (-1, 0)]) =
      negCount (Enhanced.cosDirections [((1 : ℝ), (0 : ℝ)), (-1, 0)]) := by
  have hne : ∀ d ∈ [((1 : ℝ), (0 : ℝ)), (-1, 0)],
      d ≠ ((0 : ℝ), (0 : ℝ)) := by
    intro d hd
    rcases List.mem_cons.mp hd with h | h
    · rw [h]; intro hc; rw [Prod.mk.injEq] at hc; exact one_ne_zero hc.1
    · simp only [List.mem_singleton] at h
      rw [h]; intro hc; rw [Prod.mk.injEq] at hc
      norm_num at hc
  exact ⟨hne, C10_direction_criteria_agree _ hne⟩

/-! ## C1 — toggling back to ACTIVE does not re-seed the filter state -/

/-- C1 (code bug): `toggle_stabilization` only flips the flag — it never
re-seeds `last_x`/`last_y` to the current raw position.  From a DISABLED
state with stale filter state `(0,0)` and the cursor at `(100,100)`,
re-enabling leaves the filter state at `(0,0)`, so the next corrected
output at raw `(100,100)` is `(40,40)`, not `(100,100)` (with intensity 0,
`α_eff = 0.4`).  The re-seeding assignment in `mouse_monitor` (line 222)
binds locals, not the globals, so it cannot help. -/
theorem C1_toggle_does_not_reseed :
    (∀ s : Enhanced.MonitorState,
      (Enhanced.toggle_stabilization s).stabilization_active =
        !s.stabilization_active ∧
      (Enhanced.toggle_stabilization s).last_x = s.last_x ∧
      (Enhanced.toggle_stabilization s).last_y = s.last_y ∧
      (Enhanced.toggle_stabilization s).ts = s.ts ∧
      (Enhanced.toggle_stabilization s).last_real_x = s.last_real_x ∧
      (Enhanced.toggle_stabilization s).last_real_y = s.last_real_y) ∧
    (Enhanced.toggle_stabilization Enhanced.mDis).stabilization_active =
      true ∧
    (Enhanced.toggle_stabilization Enhanced.mDis).last_x = 0 ∧
    (Enhanced.toggle_stabilization Enhanced.mDis).last_real_x = 100 ∧
    (Enhanced.apply_adaptive_smoothing Enhanced.ADAPTIVE_SMOOTHING
      Enhanced.SMOOTHING_FACTOR
      (Enhanced.toggle_stabilization Enhanced.mDis).ts.tremor_intensity
      100 100
      (Enhanced.toggle_stabilization Enhanced.mDis).last_x
      (Enhanced.toggle_stabilization Enhanced.mDis).last_y).out_x = 40 ∧
    (Enhanced.apply_adaptive_smoothing Enhanced.ADAPTIVE_SMOOTHING
      Enhanced.SMOOTHING_FACTOR
      (Enhanced.toggle_stabilization Enhanced.mDis).ts.tremor_intensity
      100 100
      (Enhanced.toggle_stabilization Enhanced.mDis).last_x
      (Enhanced.toggle_stabilization Enhanced.mDis).last_y).out_y = 40 ∧
    (40 : ℤ) ≠ 100 := by
  refine ⟨fun s => ⟨rfl, rfl, rfl, rfl, rfl, rfl⟩, rfl, rfl, rfl, ?_, ?_,
    by decide⟩ <;>
    · show pyInt _ = 40
      have hf : Enhanced.adaptiveFactor Enhanced.ADAPTIVE_SMOOTHING
          Enhanced.SMOOTHING_FACTOR
          (Enhanced.toggle_stabilization Enhanced.mDis).ts.tremor_intensity
          = 0.4 := by
        rw [Enhanced.adaptiveFactor]
        norm_num [Enhanced.toggle_stabilization, Enhanced.mDis,
          Enhanced.initState, Enhanced.ADAPTIVE_SMOOTHING,
          Enhanced.SMOOTHING_FACTOR, max_def]
      rw [pyInt, hf]
      norm_num [Enhanced.toggle_stabilization, Enhanced.mDis,
        Enhanced.initState]

end TremorFilter
